import Mathlib

/-!
Verification development for the btcpay client library.

The Go sources are shallowly embedded: pure string/byte manipulation is
translated to executable Lean functions; the external collaborators
(the Go standard library JSON/PEM/ASN.1 codecs, the btcec elliptic-curve
library, the HTTP transport) are parameters of the embedding, specified
at their boundary, exactly as the design document treats them.
-/

/-- Byte strings, as used throughout the Go sources. -/
abbrev Bytes := List UInt8

/-- Lowercase hexadecimal digit for a nibble, as produced by
Go's encoding/hex.EncodeToString. -/
def hexDigitLower (n : Nat) : Char :=
  if n < 10 then Char.ofNat (48 + n) else Char.ofNat (87 + n)

/-- Two lowercase hex characters for one byte. -/
def hexEncodeByte (b : UInt8) : List Char :=
  [hexDigitLower (b.toNat / 16), hexDigitLower (b.toNat % 16)]

/-- Models Go's hex.EncodeToString: lowercase hex of a byte string. -/
def hexEncode (bs : Bytes) : String :=
  String.mk (bs.map hexEncodeByte).flatten

/-- Models Go's hex fromHexChar: accepts 0-9, a-f and A-F. -/
def fromHexChar (c : Char) : Option Nat :=
  if 48 ≤ c.toNat ∧ c.toNat ≤ 57 then some (c.toNat - 48)
  else if 97 ≤ c.toNat ∧ c.toNat ≤ 102 then some (c.toNat - 87)
  else if 65 ≤ c.toNat ∧ c.toNat ≤ 70 then some (c.toNat - 55)
  else none

/-- Decodes a hex character list two characters at a time; fails on an
odd-length tail or a non-hex character, as Go's hex.DecodeString does. -/
def hexDecodeChars : List Char → Option Bytes
  | [] => some []
  | [_] => none
  | c1 :: c2 :: rest => do
      let h ← fromHexChar c1
      let l ← fromHexChar c2
      let tl ← hexDecodeChars rest
      pure (UInt8.ofNat (16 * h + l) :: tl)

/-- Models Go's hex.DecodeString. -/
def hexDecode (s : String) : Option Bytes :=
  hexDecodeChars s.data

theorem fromHexChar_hexDigitLower (n : Nat) (h : n < 16) :
    fromHexChar (hexDigitLower n) = some n := by
  interval_cases n <;> decide

theorem uint8_ofNat_toNat (b : UInt8) :
    UInt8.ofNat (16 * (b.toNat / 16) + b.toNat % 16) = b := by
  apply UInt8.ext
  have hb := UInt8.toNat_lt b
  have hr : 16 * (b.toNat / 16) + b.toNat % 16 = b.toNat := by omega
  rw [hr]
  have hdef : (UInt8.ofNat b.toNat).toNat = b.toNat % 256 := rfl
  rw [hdef]
  omega

theorem hexDecodeChars_encode_append (bs : Bytes) (cs : List Char) :
    hexDecodeChars ((bs.map hexEncodeByte).flatten ++ cs) =
      (hexDecodeChars cs).map (fun tl => bs ++ tl) := by
  induction bs with
  | nil => cases h : hexDecodeChars cs <;> simp [h]
  | cons b tl ih =>
      have h1 : b.toNat / 16 < 16 := by
        have := UInt8.toNat_lt b
        omega
      have h2 : b.toNat % 16 < 16 := Nat.mod_lt _ (by omega)
      simp only [List.map_cons, List.flatten_cons, hexEncodeByte,
        List.cons_append, List.append_assoc]
      simp only [hexDecodeChars, fromHexChar_hexDigitLower _ h1,
        fromHexChar_hexDigitLower _ h2, Option.bind_eq_bind,
        Option.some_bind, List.nil_append]
      rw [ih]
      cases h : hexDecodeChars cs with
      | none => simp
      | some l => simp [uint8_ofNat_toNat b]

theorem hexDecode_hexEncode (bs : Bytes) : hexDecode (hexEncode bs) = some bs := by
  have := hexDecodeChars_encode_append bs []
  simpa [hexDecode, hexEncode, hexDecodeChars] using this

/-- Base58 alphabet used by btcutil/base58. -/
def b58Alphabet : List Char :=
  "123456789ABCDEFGHJKLMNPQRSTUVWXYZabcdefghijkmnopqrstuvwxyz".data

/-- Big-endian interpretation of a byte string, as big.Int.SetBytes does. -/
def bytesToNat (bs : Bytes) : Nat :=
  bs.foldl (fun acc b => acc * 256 + b.toNat) 0

/-- Base58 digits of a number, least significant first, as produced by the
division loop of btcutil/base58.Encode. -/
def b58DigitsRev (n : Nat) : List Char :=
  if h : n = 0 then []
  else b58Alphabet.getD (n % 58) '1' :: b58DigitsRev (n / 58)
decreasing_by exact Nat.div_lt_self (Nat.pos_of_ne_zero h) (by omega)

/-- One alphabet zero digit per leading zero byte, as in btcutil/base58.Encode. -/
def leadingOnes : Bytes → List Char
  | [] => []
  | b :: tl => if b = 0 then '1' :: leadingOnes tl else []

/-- Models btcutil/base58.Encode: leading-zero markers followed by the
base-58 digits of the big-endian value, most significant first. -/
def base58Encode (bs : Bytes) : String :=
  String.mk (leadingOnes bs ++ (b58DigitsRev (bytesToNat bs)).reverse)

/-- Division loop of the big-endian byte representation, with explicit
fuel so the definition is structurally recursive. -/
def natToBytesFuel : Nat → Nat → Bytes
  | _, 0 => []
  | 0, _ => []
  | f + 1, m => natToBytesFuel f (m / 256) ++ [UInt8.ofNat (m % 256)]

/-- Minimal big-endian byte representation of a number, as big.Int.Bytes. -/
def natToBytes (n : Nat) : Bytes :=
  natToBytesFuel n n

theorem bytesToNat_append_single (xs : Bytes) (b : UInt8) :
    bytesToNat (xs ++ [b]) = bytesToNat xs * 256 + b.toNat := by
  simp [bytesToNat, List.foldl_append]

theorem bytesToNat_natToBytesFuel (fuel : Nat) :
    ∀ n, n ≤ fuel → bytesToNat (natToBytesFuel fuel n) = n := by
  induction fuel with
  | zero =>
      intro n hn
      interval_cases n
      simp [natToBytesFuel, bytesToNat]
  | succ f ih =>
      intro n hn
      cases n with
      | zero => simp [natToBytesFuel, bytesToNat]
      | succ m =>
          show bytesToNat (natToBytesFuel f ((m + 1) / 256) ++
            [UInt8.ofNat ((m + 1) % 256)]) = m + 1
          rw [bytesToNat_append_single]
          have hdiv : (m + 1) / 256 ≤ f := by
            have := Nat.div_lt_self (Nat.succ_pos m) (by omega : 1 < 256)
            omega
          rw [ih _ hdiv]
          have hdef : (UInt8.ofNat ((m + 1) % 256)).toNat =
              (m + 1) % 256 % 256 := rfl
          rw [hdef]
          omega

theorem bytesToNat_natToBytes (n : Nat) : bytesToNat (natToBytes n) = n :=
  bytesToNat_natToBytesFuel n n (Nat.le_refl n)

/-- Models the hexHash helper of crypto.go: decode the hex input, feed the
bytes to the hash, return the digest hex-encoded. -/
def hexHash (h : Bytes → Bytes) (v : String) : Option String := do
  let b ← hexDecode v
  pure (hexEncode (h b))

/-- Go string slicing s[0:n] on ASCII strings. -/
def strTake (s : String) (n : Nat) : String :=
  String.mk (s.data.take n)

/-- Models generateSIN of crypto.go from the point where the hex-encoded
compressed public key is in hand (the pub local variable); the SHA-256 and
RIPEMD-160 primitives of the external hash libraries are parameters. -/
def generateSINfromPub (sha ripemd : Bytes → Bytes) (pubBytes : Bytes) :
    Option String := do
  let pub := hexEncode pubBytes
  let hx1 ← hexHash sha pub
  let hx2 ← hexHash ripemd hx1
  let sinHeader := "0F02" ++ hx2
  let hx3 ← hexHash sha sinHeader
  let hx4 ← hexHash sha hx3
  let checksum := strTake hx4 8
  let hx5 := sinHeader ++ checksum
  let bhx ← hexDecode hx5
  pure (base58Encode bhx)

theorem hexDecodeChars_0F02 (rest : List Char) :
    hexDecodeChars ('0' :: 'F' :: '0' :: '2' :: rest) =
      (hexDecodeChars rest).map (fun tl => (15 : UInt8) :: (2 : UInt8) :: tl) := by
  have h0 : fromHexChar '0' = some 0 := by decide
  have hF : fromHexChar 'F' = some 15 := by decide
  have h2 : fromHexChar '2' = some 2 := by decide
  simp only [hexDecodeChars, h0, hF, h2, Option.bind_eq_bind, Option.some_bind]
  cases h : hexDecodeChars rest with
  | none => simp
  | some l => simp

theorem flatten_encode_take (bs : Bytes) (k : Nat) (h : k ≤ bs.length) :
    ((bs.map hexEncodeByte).flatten).take (2 * k) =
      ((bs.take k).map hexEncodeByte).flatten := by
  induction bs generalizing k with
  | nil =>
      have : k = 0 := by simpa using h
      simp [this]
  | cons b tl ih =>
      cases k with
      | zero => simp
      | succ k' =>
          have harith : 2 * (k' + 1) = 2 * k' + 1 + 1 := by ring
          simp only [List.map_cons, List.flatten_cons, hexEncodeByte,
            List.cons_append, List.nil_append, harith, List.take_succ_cons,
            List.take_cons]
          have hk : k' ≤ tl.length := by simpa using h
          simp [ih k' hk, hexEncodeByte]

theorem strmk_append (l m : List Char) :
    String.mk l ++ String.mk m = String.mk (l ++ m) := rfl

theorem hexEncode_append (a b : Bytes) :
    hexEncode (a ++ b) = hexEncode a ++ hexEncode b := by
  simp [hexEncode, strmk_append]

theorem data_0F02_append (s : String) :
    ("0F02" ++ s).data = '0' :: 'F' :: '0' :: '2' :: s.data := by
  cases s with
  | mk l => rfl

theorem hexDecode_0F02_append (bs : Bytes) :
    hexDecode ("0F02" ++ hexEncode bs) = some ((15 : UInt8) :: 2 :: bs) := by
  rw [hexDecode, data_0F02_append, hexDecodeChars_0F02]
  have := hexDecodeChars_encode_append bs []
  simp only [List.append_nil] at this
  simp [hexEncode, this, hexDecodeChars]

theorem strTake_hexEncode (bs : Bytes) (h : 4 ≤ bs.length) :
    strTake (hexEncode bs) 8 = hexEncode (bs.take 4) := by
  have h8 : (8 : Nat) = 2 * 4 := rfl
  simp only [strTake, hexEncode, h8]
  rw [flatten_encode_take bs 4 h]

/-- Claim C7: for every key pair, the SIN produced by generateSIN is, at the
byte level, Base58Encode(header ++ checksum) with h1 = SHA256(compressed
public key bytes), h2 = RIPEMD160(h1), header = 0x0F02 ++ h2 and checksum the
first 4 bytes of SHA256(SHA256(header)); the RIPEMD-160 pass happens before
the version prefix is attached. -/
theorem generateSIN_pipeline (sha ripemd : Bytes → Bytes)
    (hsha : ∀ bs, (sha bs).length = 32) (pub : Bytes) :
    generateSINfromPub sha ripemd pub =
      some (base58Encode
        (((15 : UInt8) :: (2 : UInt8) :: ripemd (sha pub)) ++
          (sha (sha ((15 : UInt8) :: (2 : UInt8) :: ripemd (sha pub)))).take 4)) := by
  have hlen : 4 ≤ (sha (sha ((15 : UInt8) :: 2 :: ripemd (sha pub)))).length := by
    rw [hsha]
    omega
  simp only [generateSINfromPub, hexHash, hexDecode_hexEncode,
    Option.pure_def, Option.bind_eq_bind, Option.some_bind,
    hexDecode_0F02_append, strTake_hexEncode _ hlen]
  rw [String.append_assoc, ← hexEncode_append, hexDecode_0F02_append]
  simp

/-- Stub hash standing in for SHA-256 in the witness below. -/
def shaStub (bs : Bytes) : Bytes := List.replicate 32 (UInt8.ofNat bs.length)

/-- Stub hash standing in for RIPEMD-160 in the witness below. -/
def ripemdStub (bs : Bytes) : Bytes := List.replicate 20 (UInt8.ofNat bs.length)

/-- Witness for claim C7 at a concrete public key. -/
theorem generateSIN_pipeline_witness :
    (∀ bs, (shaStub bs).length = 32) ∧
      generateSINfromPub shaStub ripemdStub [3] =
        some (base58Encode
          (((15 : UInt8) :: (2 : UInt8) :: ripemdStub (shaStub [3])) ++
            (shaStub (shaStub ((15 : UInt8) :: (2 : UInt8) ::
              ripemdStub (shaStub [3])))).take 4)) :=
  ⟨fun bs => by simp [shaStub],
    generateSIN_pipeline shaStub ripemdStub (fun bs => by simp [shaStub]) [3]⟩

/-- Uppercase hexadecimal digit, as used by Go's percent-encoding. -/
def hexDigitUpper (n : Nat) : Char :=
  if n < 10 then Char.ofNat (48 + n) else Char.ofNat (55 + n)

/-- Models Go's url.QueryEscape on one ASCII character: unreserved
characters pass through, space becomes '+', the rest become %XX. -/
def queryEscapeChar (c : Char) : List Char :=
  if ('A' ≤ c ∧ c ≤ 'Z') ∨ ('a' ≤ c ∧ c ≤ 'z') ∨ ('0' ≤ c ∧ c ≤ '9') ∨
      c = '-' ∨ c = '_' ∨ c = '.' ∨ c = '~' then [c]
  else if c = ' ' then ['+']
  else ['%', hexDigitUpper (c.toNat / 16), hexDigitUpper (c.toNat % 16)]

/-- Models Go's url.QueryEscape (on ASCII input, which is all the client
ever passes). -/
def queryEscape (s : String) : String :=
  String.mk (s.data.map queryEscapeChar).flatten

/-- Models Go's url.Values: a map from keys to ordered value lists. The
list order records the caller's insertion order; a Go map itself retains
no such order, and Encode never consults it. -/
abbrev Values := List (String × List String)

/-- Go's byte-wise lexicographic string order (on ASCII, equal to the
codepoint order used here). -/
def charListLe : List Char → List Char → Bool
  | [], _ => true
  | _ :: _, [] => false
  | x :: xs, y :: ys =>
      if x.toNat < y.toNat then true
      else if y.toNat < x.toNat then false
      else charListLe xs ys

/-- Go's s1 <= s2 on strings, as sort.Strings compares. -/
def strLe (a b : String) : Bool :=
  charListLe a.data b.data

/-- Insertion step of sorting the keys, as sort.Strings does inside
url.Values.Encode. -/
def insertByKey (x : String × List String) :
    List (String × List String) → List (String × List String)
  | [] => [x]
  | y :: tl => if strLe x.1 y.1 then x :: y :: tl else y :: insertByKey x tl

/-- Key-sorted view of a url.Values map (sort.Strings on the keys). -/
def sortByKey (vs : Values) : Values :=
  vs.foldr insertByKey []

/-- Models url.Values.Encode: keys sorted, each value percent-encoded,
pairs joined with '&'. -/
def valuesEncode (vs : Values) : String :=
  String.intercalate "&"
    ((sortByKey vs).map
      (fun kv => kv.2.map (fun v => queryEscape kv.1 ++ "=" ++ queryEscape v))).flatten

/-- JSON values as marshaled by encoding/json; object fields are listed in
the order Marshal writes them (declaration order for structs). -/
inductive Json where
  | str : String → Json
  | num : Int → Json
  | jbool : Bool → Json
  | null : Json
  | arr : List Json → Json
  | obj : List (String × Json) → Json

/-- Models encoding/json string escaping (with its default HTML escaping). -/
def jsonEscapeChar (c : Char) : List Char :=
  if c = '"' then ['\\', '"']
  else if c = '\\' then ['\\', '\\']
  else if c = '\n' then ['\\', 'n']
  else if c = '\r' then ['\\', 'r']
  else if c = '\t' then ['\\', 't']
  else if c = '<' ∨ c = '>' ∨ c = '&' then
    ['\\', 'u', '0', '0', hexDigitLower (c.toNat / 16), hexDigitLower (c.toNat % 16)]
  else if c.toNat < 32 then
    ['\\', 'u', '0', '0', hexDigitLower (c.toNat / 16), hexDigitLower (c.toNat % 16)]
  else [c]

/-- A JSON string literal with its quotes. -/
def jsonQuote (s : String) : String :=
  "\"" ++ String.mk (s.data.map jsonEscapeChar).flatten ++ "\""

mutual

/-- Models json.Marshal on an already-parsed JSON value. -/
def jsonSerialize : Json → String
  | .str s => jsonQuote s
  | .num n => toString n
  | .jbool b => if b then "true" else "false"
  | .null => "null"
  | .arr xs => "[" ++ serializeElems xs ++ "]"
  | .obj fs => "\x7b" ++ serializeFields fs ++ "\x7d"

/-- Comma-separated serialization of array elements. -/
def serializeElems : List Json → String
  | [] => ""
  | [x] => jsonSerialize x
  | x :: y :: tl => jsonSerialize x ++ "," ++ serializeElems (y :: tl)

/-- Comma-separated serialization of object fields. -/
def serializeFields : List (String × Json) → String
  | [] => ""
  | [(k, v)] => jsonQuote k ++ ":" ++ jsonSerialize v
  | (k, v) :: y :: tl =>
      jsonQuote k ++ ":" ++ jsonSerialize v ++ "," ++ serializeFields (y :: tl)

end

/-- Go map assignment m[k] = v on an association-list view of the map. -/
def mapSet (m : List (String × Json)) (k : String) (v : Json) :
    List (String × Json) :=
  if m.any (fun kv => kv.1 = k) then
    m.map (fun kv => if kv.1 = k then (k, v) else kv)
  else m ++ [(k, v)]

/-- The map a JSON object unmarshals to: later duplicate keys overwrite
earlier ones, as encoding/json does. -/
def mapFromFields (fs : List (String × Json)) : List (String × Json) :=
  fs.foldl (fun m kv => mapSet m kv.1 kv.2) []

/-- Models json.Unmarshal of the marshaled payload bytes into a
map[string]interface value: succeeds exactly on JSON objects. -/
def jsonToMap : Json → Except String (List (String × Json))
  | .obj fs => .ok (mapFromFields fs)
  | _ => .error "json: cannot unmarshal value into Go value of type map"

/-- Insertion step of sorting object keys, as json.Marshal does for maps. -/
def insertField (x : String × Json) :
    List (String × Json) → List (String × Json)
  | [] => [x]
  | y :: tl => if strLe x.1 y.1 then x :: y :: tl else y :: insertField x tl

/-- Key-sorted field list, as json.Marshal emits map keys. -/
def sortFields (fs : List (String × Json)) : List (String × Json) :=
  fs.foldr insertField []

/-- Models json.Marshal of a map[string]interface value: keys sorted. -/
def marshalMap (m : List (String × Json)) : String :=
  jsonSerialize (Json.obj (sortFields m))

/-- The client state (client.go): fixed headers, base URL, PEM key
material, derived SIN and the mutable pairing token. -/
structure Client where
  header : List (String × String)
  host : String
  pem : String
  clientID : String
  token : String
deriving DecidableEq

/-- The four fixed headers NewClient installs. -/
def defaultHeader : List (String × String) :=
  [("Content-Type", "application/json"), ("Accept", "application/json"),
    ("X-Accept-Version", "2.0.0"), ("User-Agent", "btcpay-go")]

/-- The request as handed to the transport: parsed URL base (host ++
endpoint), the RawQuery installed on it, the body string, the headers, and
a record of the exact string the signer was given (none when unsigned). -/
structure BuiltRequest where
  urlBase : String
  rawQuery : String
  body : String
  header : List (String × String)
  signerInput : Option String
deriving DecidableEq

/-- Models net/url URL.String() after RawQuery has been set: the parsed
scheme://host/path serialization followed by ?query when the query is
non-empty. -/
def urlString (urlBase rawQuery : String) : String :=
  urlBase ++ (if rawQuery = "" then "" else "?" ++ rawQuery)

/-- The body string send computes (client.go, payload branch): marshal the
payload; when a token is installed, unmarshal into a map, set m["token"],
and marshal the map back (sorted keys). No payload means an empty body. -/
def sendBody (c : Client) (payload : Option Json) : Except String String :=
  match payload with
  | some pl =>
      let d := jsonSerialize pl
      if c.token ≠ "" then
        match jsonToMap pl with
        | .error e => .error e
        | .ok m => .ok (marshalMap (mapSet m "token" (Json.str c.token)))
      else .ok d
  | none => .ok ""

/-- The query string send builds (client.go): token=<token> only when
there is no payload and a token is installed, then the encoded params,
'&'-separated from the token pair when both are present. -/
def sendQuery (c : Client) (params : Values) (payload : Option Json) : String :=
  let query :=
    match payload with
    | some _ => ""
    | none => if c.token ≠ "" then "token=" ++ c.token else ""
  if params.length > 0 then
    (if query.length > 0 then query ++ "&" else query) ++ valuesEncode params
  else query

/-- Models the request-construction part of Client.send (client.go lines
400-468): build body and query, resolve the URL, install headers, and, when
the signature flag is set, obtain the compressed public key and sign
URL.String()+body, attaching the X-Identity and X-Signature headers. The
key-extraction and signing primitives (pubKey, sign of crypto.go) are
parameters. -/
def sendBuild (c : Client) (endpoint : String) (params : Values)
    (payload : Option Json) (sig : Bool)
    (pubKeyOf : String → Except String String)
    (signOf : String → String → Except String String) :
    Except String BuiltRequest :=
  match sendBody c payload with
  | .error e => .error e
  | .ok body =>
      if sig then
        match pubKeyOf c.pem with
        | .error e => .error e
        | .ok pub =>
            match signOf c.pem
                (urlString (c.host ++ endpoint) (sendQuery c params payload) ++ body) with
            | .error e => .error e
            | .ok sg =>
                .ok ⟨c.host ++ endpoint, sendQuery c params payload, body,
                  c.header ++ [("X-Identity", pub), ("X-Signature", sg)],
                  some (urlString (c.host ++ endpoint)
                    (sendQuery c params payload) ++ body)⟩
      else .ok ⟨c.host ++ endpoint, sendQuery c params payload, body, c.header, none⟩

/-- Claim C1: whenever the signature flag is set and send reaches dispatch,
the string handed to the signer is exactly the resolved request URL
(scheme, host, path and query string, token prefix and parameters
included) immediately concatenated, with no separator, with the exact body
string sent on the wire (empty when there is no body). -/
theorem send_signerInput_is_url_and_body (c : Client) (endpoint : String)
    (params : Values) (payload : Option Json)
    (pubKeyOf : String → Except String String)
    (signOf : String → String → Except String String) (r : BuiltRequest)
    (h : sendBuild c endpoint params payload true pubKeyOf signOf = .ok r) :
    r.signerInput = some (urlString r.urlBase r.rawQuery ++ r.body) := by
  unfold sendBuild at h
  repeat' split at h
  all_goals first
    | (cases h <;> rfl)
    | simp_all

/-- Client used by concrete request-construction examples. -/
def cW1 : Client := ⟨defaultHeader, "http://test.com", "PEMW", "SINW", "123"⟩

/-- Stub for the pubKey function of crypto.go in concrete examples. -/
def pubW : String → Except String String := fun _ => .ok "PUBHEX"

/-- Stub for the sign function of crypto.go in concrete examples. -/
def signW : String → String → Except String String :=
  fun _ v => .ok ("SIG:" ++ v)

/-- The request sendBuild produces in the concrete example below. -/
def rW1 : BuiltRequest :=
  ⟨"http://test.com/testing", "token=123&q1=v1&q2=v2", "",
    defaultHeader ++
      [("X-Identity", "PUBHEX"),
        ("X-Signature", "SIG:http://test.com/testing?token=123&q1=v1&q2=v2")],
    some "http://test.com/testing?token=123&q1=v1&q2=v2"⟩

/-- Witness for claim C1 at a concrete signed request. -/
theorem send_signerInput_witness :
    sendBuild cW1 "/testing" [("q1", ["v1"]), ("q2", ["v2"])] none true
        pubW signW = .ok rW1 ∧
      rW1.signerInput = some (urlString rW1.urlBase rW1.rawQuery ++ rW1.body) :=
  ⟨rfl,
    send_signerInput_is_url_and_body cW1 "/testing"
      [("q1", ["v1"]), ("q2", ["v2"])] none pubW signW rW1 rfl⟩

/-- Claim C2 counterexample: with token "123" installed and the caller
supplying the parameters in the order q2 before q1, the built query string
is token=123&q1=v1&q2=v2 — url.Values.Encode sorts keys — and not the
caller-order string token=123&q2=v2&q1=v1 the claim prescribes. -/
theorem send_query_not_caller_order :
    sendQuery cW1 [("q2", ["v2"]), ("q1", ["v1"])] none =
        "token=123&q1=v1&q2=v2" ∧
      sendQuery cW1 [("q2", ["v2"]), ("q1", ["v1"])] none ≠
        "token=123&q2=v2&q1=v1" := by
  constructor
  · rfl
  · have h1 : sendQuery cW1 [("q2", ["v2"]), ("q1", ["v1"])] none =
        "token=123&q1=v1&q2=v2" := rfl
    intro h
    rw [h1] at h
    exact absurd h (by decide)

/-- Claim C2 (amended): with no payload, the query string is token=<token>
first (only when a token is installed), then, separated by '&', the
caller-supplied parameters as url.Values.Encode renders them — sorted by
key, not in the order the caller provided them. -/
theorem send_query_token_then_encoded_params (c : Client) (params : Values) :
    sendQuery c params none =
      (if c.token = "" then "" else "token=" ++ c.token) ++
        (if params = [] then ""
         else (if c.token = "" then "" else "&") ++ valuesEncode params) := by
  by_cases htok : c.token = "" <;>
    cases params with
    | nil => simp [sendQuery, htok]
    | cons p ps =>
        have h6 : (0 : Nat) < "token=".length := by decide
        simp [sendQuery, htok, String.length_append, h6, String.append_assoc]

/-- Claim C3 counterexample: with token "123" installed and a payload that
itself defines a token field ("abc"), the serialized body carries the
client token "123" — m["token"] = c.token overwrites the payload's value —
not the payload's own "abc" the claim gives precedence to. -/
theorem send_body_client_token_wins :
    sendBody cW1 (some (Json.obj [("token", Json.str "abc")])) =
        .ok "\x7b\"token\":\"123\"\x7d" ∧
      (Except.ok "\x7b\"token\":\"123\"\x7d" : Except String String) ≠
        .ok "\x7b\"token\":\"abc\"\x7d" := by
  constructor
  · rfl
  · intro h
    rw [Except.ok.injEq] at h
    exact absurd h (by decide)

/-- Claim C3 (amended): with a JSON object payload present and a token
installed, the body is the payload object with a token field merged into
the same object, the client's token overwriting any token field the
payload itself defines, keys ordered as json.Marshal emits maps; the token
does not travel in the query string, which holds only the caller-supplied
parameters and is empty when there are none. -/
theorem send_body_merges_token (c : Client) (fs : List (String × Json))
    (params : Values) (h : c.token ≠ "") :
    sendBody c (some (Json.obj fs)) =
        .ok (marshalMap (mapSet (mapFromFields fs) "token" (Json.str c.token))) ∧
      sendQuery c params (some (Json.obj fs)) =
        (if params = [] then "" else valuesEncode params) := by
  constructor
  · simp [sendBody, h, jsonToMap]
  · cases params <;> simp [sendQuery]

/-- Witness for claim C3 at the concrete payload of the design document. -/
theorem send_body_merges_token_witness :
    cW1.token ≠ "" ∧
      sendBody cW1 (some (Json.obj [("currency", Json.str "USD")])) =
        .ok "\x7b\"currency\":\"USD\",\"token\":\"123\"\x7d" ∧
      sendQuery cW1 [] (some (Json.obj [("currency", Json.str "USD")])) = "" := by
  have htok : cW1.token ≠ "" := by decide
  have h := send_body_merges_token cW1 [("currency", Json.str "USD")] [] htok
  refine ⟨htok, ?_, ?_⟩
  · rw [h.1]
    rfl
  · rw [h.2]
    rfl

/-- An HTTP response as the client sees it: status code and body. -/
structure HttpResponse where
  status : Nat
  body : String
deriving DecidableEq

/-- Models the response classification of Client.send (client.go lines
475-488): any status ≥ 400 decodes the body as an error object and fails
with "[<status>] <error>"; when that decode itself fails, the decode error
is returned instead; a status < 400 response is passed through untouched.
The decoding of the error body (encoding/json into the rerr struct) is a
parameter. -/
def classifyResponse (decodeErrBody : String → Except String String)
    (resp : HttpResponse) : Except String HttpResponse :=
  if 400 ≤ resp.status then
    match decodeErrBody resp.body with
    | .error e => .error e
    | .ok msg => .error ("[" ++ Nat.repr resp.status ++ "] " ++ msg)
  else .ok resp

/-- Models Client.send end to end: build the request, dispatch it over the
transport, classify the response. The transport (net/http) is a parameter. -/
def sendFull (c : Client) (endpoint : String) (params : Values)
    (payload : Option Json) (sig : Bool)
    (pubKeyOf : String → Except String String)
    (signOf : String → String → Except String String)
    (transport : BuiltRequest → Except String HttpResponse)
    (decodeErrBody : String → Except String String) :
    Except String HttpResponse :=
  match sendBuild c endpoint params payload sig pubKeyOf signOf with
  | .error e => .error e
  | .ok req =>
      match transport req with
      | .error e => .error e
      | .ok resp => classifyResponse decodeErrBody resp

/-- One record of the token array the pairing endpoint returns. -/
structure TokenRec where
  token : String
deriving DecidableEq

/-- The pairing request body value: \x7bid: SIN, pairingCode: code\x7d. -/
def pairData (c : Client) (code : String) : Json :=
  Json.obj [("id", Json.str c.clientID), ("pairingCode", Json.str code)]

/-- Models Client.pair (client.go lines 494-525): POST the pairing body to
/tokens unsigned, decode the response as a token array, fail with
"token data not returned" when it is empty, otherwise install the first
record's token. Returns the resulting client state and the error, if any;
every failure path returns before the token assignment. The decoding of
the token array (encoding/json into []struct\x7bToken string\x7d) is a
parameter. -/
def pair (c : Client) (code : String)
    (pubKeyOf : String → Except String String)
    (signOf : String → String → Except String String)
    (transport : BuiltRequest → Except String HttpResponse)
    (decodeErrBody : String → Except String String)
    (decodeTokens : String → Except String (List TokenRec)) :
    Client × Option String :=
  match sendFull c "/tokens" [] (some (pairData c code)) false
      pubKeyOf signOf transport decodeErrBody with
  | .error e => (c, some e)
  | .ok resp =>
      match decodeTokens resp.body with
      | .error e => (c, some e)
      | .ok [] => (c, some "token data not returned")
      | .ok (t :: _) => ({ c with token := t.token }, none)

/-- Claim C6: every response with status ≥ 400 is decoded as an error
object and, on successful decode, the call fails with the message
"[<status>] <error>" exactly; when that decode fails, its error is
surfaced instead of the bracketed message; every response with status
< 400 is returned raw. -/
theorem classifyResponse_spec (decodeErrBody : String → Except String String)
    (resp : HttpResponse) :
    (∀ msg, 400 ≤ resp.status → decodeErrBody resp.body = .ok msg →
      classifyResponse decodeErrBody resp =
        .error ("[" ++ Nat.repr resp.status ++ "] " ++ msg)) ∧
    (∀ e, 400 ≤ resp.status → decodeErrBody resp.body = .error e →
      classifyResponse decodeErrBody resp = .error e) ∧
    (resp.status < 400 → classifyResponse decodeErrBody resp = .ok resp) := by
  refine ⟨?_, ?_, ?_⟩
  · intro msg hs hd
    simp [classifyResponse, hs, hd]
  · intro e hs hd
    simp [classifyResponse, hs, hd]
  · intro hs
    simp [classifyResponse, Nat.not_le_of_lt hs]

/-- Error-body decoder used by concrete examples: models encoding/json
decoding of \x7b"error": string\x7d at the two bodies exercised. -/
def decodeErrW : String → Except String String := fun s =>
  if s = "\x7b\"error\":\"unauthorized123\"\x7d" then .ok "unauthorized123"
  else .error "unexpected EOF"

/-- Witness for claim C6: status 401 with body
\x7b"error":"unauthorized123"\x7d fails with exactly "[401] unauthorized123". -/
theorem classifyResponse_spec_witness :
    400 ≤ (401 : Nat) ∧
      decodeErrW "\x7b\"error\":\"unauthorized123\"\x7d" = .ok "unauthorized123" ∧
      classifyResponse decodeErrW ⟨401, "\x7b\"error\":\"unauthorized123\"\x7d"⟩ =
        .error "[401] unauthorized123" := by
  refine ⟨by decide, rfl, ?_⟩
  have h := (classifyResponse_spec decodeErrW
    ⟨401, "\x7b\"error\":\"unauthorized123\"\x7d"⟩).1 "unauthorized123"
    (by decide) rfl
  rw [h]
  rfl

/-- Claim C4: a non-empty decoded token array installs the first record's
token, replacing any previous value; an empty array fails with exactly
"token data not returned"; and every pairing failure — transport error,
malformed body, or empty array — leaves the client, its token included,
exactly as it was. -/
theorem pair_token_transitions (c : Client) (code : String)
    (pubKeyOf : String → Except String String)
    (signOf : String → String → Except String String)
    (transport : BuiltRequest → Except String HttpResponse)
    (decodeErrBody : String → Except String String)
    (decodeTokens : String → Except String (List TokenRec)) :
    ((pair c code pubKeyOf signOf transport decodeErrBody decodeTokens).2.isSome →
      (pair c code pubKeyOf signOf transport decodeErrBody decodeTokens).1 = c) ∧
    (∀ resp t rest,
      sendFull c "/tokens" [] (some (pairData c code)) false
          pubKeyOf signOf transport decodeErrBody = .ok resp →
      decodeTokens resp.body = .ok (t :: rest) →
      pair c code pubKeyOf signOf transport decodeErrBody decodeTokens =
        ({ c with token := t.token }, none)) ∧
    (∀ resp,
      sendFull c "/tokens" [] (some (pairData c code)) false
          pubKeyOf signOf transport decodeErrBody = .ok resp →
      decodeTokens resp.body = .ok [] →
      pair c code pubKeyOf signOf transport decodeErrBody decodeTokens =
        (c, some "token data not returned")) := by
  refine ⟨?_, ?_, ?_⟩
  · intro hsome
    unfold pair at hsome ⊢
    repeat' split
    all_goals simp_all
  · intro resp t rest hsend hdec
    unfold pair
    rw [hsend]
    dsimp only
    rw [hdec]
  · intro resp hsend hdec
    unfold pair
    rw [hsend]
    dsimp only
    rw [hdec]

/-- Unpaired client used by the pairing examples. -/
def cW4 : Client := ⟨defaultHeader, "http://test.com", "PEMW", "SINW4", ""⟩

/-- Transport stub answering the pairing call with a one-record array. -/
def transportOkW : BuiltRequest → Except String HttpResponse :=
  fun _ => .ok ⟨200, "[\x7b\"token\":\"tok123\"\x7d]"⟩

/-- Token-array decoder used by concrete examples: models encoding/json
decoding of a bare token array at the bodies exercised. -/
def decodeTokensW : String → Except String (List TokenRec) := fun s =>
  if s = "[\x7b\"token\":\"tok123\"\x7d]" then .ok [⟨"tok123"⟩]
  else if s = "[]" then .ok []
  else .error "unexpected EOF"

/-- Witness for claim C4: pairing against a server answering
[\x7b"token":"tok123"\x7d] installs the token "tok123". -/
theorem pair_token_transitions_witness :
    sendFull cW4 "/tokens" [] (some (pairData cW4 "12345")) false
        pubW signW transportOkW decodeErrW =
      .ok ⟨200, "[\x7b\"token\":\"tok123\"\x7d]"⟩ ∧
    decodeTokensW "[\x7b\"token\":\"tok123\"\x7d]" = .ok [⟨"tok123"⟩] ∧
    pair cW4 "12345" pubW signW transportOkW decodeErrW decodeTokensW =
      ({ cW4 with token := "tok123" }, none) :=
  ⟨rfl, rfl,
    (pair_token_transitions cW4 "12345" pubW signW transportOkW decodeErrW
      decodeTokensW).2.1 ⟨200, "[\x7b\"token\":\"tok123\"\x7d]"⟩ ⟨"tok123"⟩ []
      rfl rfl⟩

/-- Claim C5 (amended): every pairing request is sent unsigned — no
identity or signature header is attached and nothing is handed to the
signer — and its query string is empty; its body is exactly the JSON
object \x7bid, pairingCode\x7d when no token is installed, while on
re-pairing with a token installed send merges the client token into that
same object as an additional token field. -/
theorem pair_request_unsigned (c : Client) (code : String)
    (pubKeyOf : String → Except String String)
    (signOf : String → String → Except String String)
    (hhdr : ∀ kv ∈ c.header, kv.1 ≠ "X-Identity" ∧ kv.1 ≠ "X-Signature") :
    ∃ r, sendBuild c "/tokens" [] (some (pairData c code)) false
        pubKeyOf signOf = .ok r ∧
      r.signerInput = none ∧
      (∀ kv ∈ r.header, kv.1 ≠ "X-Identity" ∧ kv.1 ≠ "X-Signature") ∧
      r.rawQuery = "" ∧
      (c.token = "" → r.body = jsonSerialize (pairData c code)) ∧
      (c.token ≠ "" → r.body =
        marshalMap (mapSet (mapFromFields
          [("id", Json.str c.clientID), ("pairingCode", Json.str code)])
          "token" (Json.str c.token))) := by
  by_cases ht : c.token = ""
  · refine ⟨⟨c.host ++ "/tokens", "", jsonSerialize (pairData c code),
      c.header, none⟩, ?_, rfl, hhdr, rfl, fun _ => rfl,
      fun hne => absurd ht hne⟩
    simp [sendBuild, sendBody, ht, sendQuery]
  · refine ⟨⟨c.host ++ "/tokens", "",
      marshalMap (mapSet (mapFromFields
        [("id", Json.str c.clientID), ("pairingCode", Json.str code)])
        "token" (Json.str c.token)),
      c.header, none⟩, ?_, rfl, hhdr, rfl, fun heq => absurd heq ht,
      fun _ => rfl⟩
    simp [sendBuild, sendBody, ht, sendQuery, pairData, jsonToMap]

/-- Claim C5 counterexample: on re-pairing with token "123" installed, the
pairing body is not the two-field object \x7bid, pairingCode\x7d the claim
prescribes — send merges the installed token into it as a third field. -/
theorem pair_body_on_repairing_has_token :
    sendBody cW1 (some (pairData cW1 "12345")) =
        .ok "\x7b\"id\":\"SINW\",\"pairingCode\":\"12345\",\"token\":\"123\"\x7d" ∧
      jsonSerialize (pairData cW1 "12345") =
        "\x7b\"id\":\"SINW\",\"pairingCode\":\"12345\"\x7d" ∧
      (Except.ok "\x7b\"id\":\"SINW\",\"pairingCode\":\"12345\",\"token\":\"123\"\x7d"
          : Except String String) ≠
        .ok "\x7b\"id\":\"SINW\",\"pairingCode\":\"12345\"\x7d" := by
  refine ⟨rfl, rfl, ?_⟩
  intro h
  rw [Except.ok.injEq] at h
  exact absurd h (by decide)

/-- Witness for claim C5 at a concrete unpaired client. -/
theorem pair_request_unsigned_witness :
    (∀ kv ∈ cW4.header, kv.1 ≠ "X-Identity" ∧ kv.1 ≠ "X-Signature") ∧
      (∃ r, sendBuild cW4 "/tokens" [] (some (pairData cW4 "12345")) false
          pubW signW = .ok r ∧
        r.signerInput = none ∧
        (∀ kv ∈ r.header, kv.1 ≠ "X-Identity" ∧ kv.1 ≠ "X-Signature") ∧
        r.rawQuery = "" ∧
        (cW4.token = "" → r.body = jsonSerialize (pairData cW4 "12345")) ∧
        (cW4.token ≠ "" → r.body =
          marshalMap (mapSet (mapFromFields
            [("id", Json.str cW4.clientID), ("pairingCode", Json.str "12345")])
            "token" (Json.str cW4.token)))) :=
  ⟨by decide, pair_request_unsigned cW4 "12345" pubW signW (by decide)⟩

/-- The ASN.1 structure serialized by crypto.go (ecPrivateKey): version,
raw scalar bytes, named-curve OID and the uncompressed public point. -/
structure EcPrivateKeyAsn where
  version : Nat
  privateKey : Bytes
  namedCurveOID : List Nat
  publicKey : Bytes
deriving DecidableEq

/-- A decoded PEM block (encoding/pem.Block): type label and DER bytes. -/
structure PemBlock where
  btype : String
  bytes : Bytes
deriving DecidableEq

/-- A btcec key pair: the private scalar D and the public point. The
curve-point type is a parameter of the embedding. -/
structure KeyPairP (P : Type) where
  d : Nat
  pub : P
deriving DecidableEq

/-- Models btcec.PrivKeyFromBytes: D is big.Int.SetBytes of the raw bytes
and the public point is ScalarBaseMult of those bytes; it never fails and
validates nothing. -/
def privKeyFromBytes {P : Type} (scalarBaseMult : Bytes → P) (bs : Bytes) :
    KeyPairP P :=
  ⟨bytesToNat bs, scalarBaseMult bs⟩

/-- Models GeneratePEM of crypto.go after key generation: marshal an
ecPrivateKey value (version 1, D.Bytes(), the secp256k1 OID 1.3.132.0.10,
the uncompressed public point) and wrap the DER bytes in an
"EC PRIVATE KEY" PEM block. The ASN.1 and PEM encoders of the Go standard
library are parameters, specified at their boundary. -/
def encodePEM {P : Type}
    (asn1Marshal : EcPrivateKeyAsn → Except String Bytes)
    (pemEncodeToMemory : PemBlock → String)
    (uncompressedMarshal : P → Bytes)
    (k : KeyPairP P) : Except String String :=
  match asn1Marshal
      ⟨1, natToBytes k.d, [1, 3, 132, 0, 10], uncompressedMarshal k.pub⟩ with
  | .error e => .error e
  | .ok der => .ok (pemEncodeToMemory ⟨"EC PRIVATE KEY", der⟩)

/-- Models privKey of crypto.go (lines 127-142): decode the PEM block,
failing with "private key not found" when there is none, unmarshal the
ASN.1 structure, and rebuild the key from the raw scalar bytes with
btcec.PrivKeyFromBytes, which re-derives the public point from the scalar
and never fails. -/
def privKey {P : Type}
    (pemDecode : String → Option PemBlock)
    (asn1Unmarshal : Bytes → Except String EcPrivateKeyAsn)
    (scalarBaseMult : Bytes → P)
    (pm : String) : Except String (KeyPairP P) :=
  match pemDecode pm with
  | none => .error "private key not found"
  | some b =>
      match asn1Unmarshal b.bytes with
      | .error e => .error e
      | .ok ecpk => .ok (privKeyFromBytes scalarBaseMult ecpk.privateKey)

/-- Claim C8: decoding the PEM produced for a generated key pair yields a
key pair whose compressed public key — re-derived from the decoded scalar
— equals that of the original, and hence whose derived SIN equals the
original SIN. The standard-library codecs enter as boundary assumptions:
pem.Decode inverts pem.EncodeToMemory on the block bytes, asn1.Unmarshal
inverts asn1.Marshal, and ScalarBaseMult interprets scalar bytes
big-endian. -/
theorem decodePEM_encodePEM_roundtrip {P : Type}
    (asn1Marshal : EcPrivateKeyAsn → Except String Bytes)
    (asn1Unmarshal : Bytes → Except String EcPrivateKeyAsn)
    (pemEncodeToMemory : PemBlock → String)
    (pemDecode : String → Option PemBlock)
    (uncompressedMarshal : P → Bytes) (compress : P → Bytes)
    (pointOfScalar : Nat → P) (scalarBaseMult : Bytes → P)
    (hpem : ∀ blk, ∃ blk', pemDecode (pemEncodeToMemory blk) = some blk' ∧
      blk'.bytes = blk.bytes)
    (hasn : ∀ e der, asn1Marshal e = .ok der → asn1Unmarshal der = .ok e)
    (hsb : ∀ bs, scalarBaseMult bs = pointOfScalar (bytesToNat bs))
    (sha ripemd : Bytes → Bytes) (d : Nat) (pm : String)
    (henc : encodePEM asn1Marshal pemEncodeToMemory uncompressedMarshal
      ⟨d, pointOfScalar d⟩ = .ok pm) :
    ∃ k', privKey pemDecode asn1Unmarshal scalarBaseMult pm = .ok k' ∧
      compress k'.pub = compress (pointOfScalar d) ∧
      generateSINfromPub sha ripemd (compress k'.pub) =
        generateSINfromPub sha ripemd (compress (pointOfScalar d)) := by
  unfold encodePEM at henc
  cases hm : asn1Marshal
      ⟨1, natToBytes d, [1, 3, 132, 0, 10], uncompressedMarshal (pointOfScalar d)⟩ with
  | error e => rw [hm] at henc; exact absurd henc (by simp)
  | ok der =>
      rw [hm] at henc
      have hpm : pm = pemEncodeToMemory ⟨"EC PRIVATE KEY", der⟩ := by
        cases henc
        rfl
      obtain ⟨blk', hdec, hbytes⟩ := hpem ⟨"EC PRIVATE KEY", der⟩
      have hun : asn1Unmarshal blk'.bytes =
          .ok ⟨1, natToBytes d, [1, 3, 132, 0, 10],
            uncompressedMarshal (pointOfScalar d)⟩ := by
        rw [hbytes]
        exact hasn _ der hm
      refine ⟨privKeyFromBytes scalarBaseMult (natToBytes d), ?_, ?_, ?_⟩
      · unfold privKey
        rw [hpm, hdec]
        dsimp only
        rw [hun]
      · unfold privKeyFromBytes
        rw [hsb, bytesToNat_natToBytes]
      · unfold privKeyFromBytes
        rw [hsb, bytesToNat_natToBytes]

/-- The concrete ASN.1 value marshaled in the round-trip witness. -/
def asnW : EcPrivateKeyAsn := ⟨1, natToBytes 5, [1, 3, 132, 0, 10], natToBytes 5⟩

/-- ASN.1 marshaller stub for the witness: encodes the single value the
witness exercises. -/
def asn1MarshalW : EcPrivateKeyAsn → Except String Bytes := fun e =>
  if e = asnW then .ok [0] else .error "asn1: unsupported structure"

/-- ASN.1 unmarshaller stub inverting asn1MarshalW. -/
def asn1UnmarshalW : Bytes → Except String EcPrivateKeyAsn := fun bs =>
  if bs = [0] then .ok asnW else .error "asn1: structure error"

/-- PEM encoder stub for the witness. -/
def pemEncodeW : PemBlock → String := fun blk => hexEncode blk.bytes

/-- PEM decoder stub inverting pemEncodeW. -/
def pemDecodeW : String → Option PemBlock := fun s =>
  (hexDecode s).map (fun bs => ⟨"EC PRIVATE KEY", bs⟩)

/-- Witness for claim C8 at the scalar 5, with the curve-point type
instantiated to the scalar itself and compression to the minimal
big-endian bytes. -/
theorem decodePEM_encodePEM_roundtrip_witness :
    (∀ blk, ∃ blk', pemDecodeW (pemEncodeW blk) = some blk' ∧
        blk'.bytes = blk.bytes) ∧
      (∀ e der, asn1MarshalW e = .ok der → asn1UnmarshalW der = .ok e) ∧
      (∀ bs, bytesToNat bs = bytesToNat bs) ∧
      encodePEM asn1MarshalW pemEncodeW natToBytes
        (⟨5, 5⟩ : KeyPairP Nat) = .ok "00" ∧
      (∃ k', privKey pemDecodeW asn1UnmarshalW bytesToNat "00" = .ok k' ∧
        natToBytes k'.pub = natToBytes 5 ∧
        generateSINfromPub shaStub ripemdStub (natToBytes k'.pub) =
          generateSINfromPub shaStub ripemdStub (natToBytes 5)) := by
  have hpem : ∀ blk, ∃ blk', pemDecodeW (pemEncodeW blk) = some blk' ∧
      blk'.bytes = blk.bytes := by
    intro blk
    refine ⟨⟨"EC PRIVATE KEY", blk.bytes⟩, ?_, rfl⟩
    simp [pemDecodeW, pemEncodeW, hexDecode_hexEncode]
  have hasn : ∀ e der, asn1MarshalW e = .ok der → asn1UnmarshalW der = .ok e := by
    intro e der hm
    unfold asn1MarshalW at hm
    split at hm
    · simp_all [asn1UnmarshalW]
    · exact absurd hm (by simp)
  have hsb : ∀ bs : Bytes, bytesToNat bs = id (bytesToNat bs) := fun bs => rfl
  have henc : encodePEM asn1MarshalW pemEncodeW natToBytes
      (⟨5, 5⟩ : KeyPairP Nat) = .ok "00" := rfl
  exact ⟨hpem, hasn, fun bs => rfl, henc,
    decodePEM_encodePEM_roundtrip (P := Nat) asn1MarshalW asn1UnmarshalW
      pemEncodeW pemDecodeW natToBytes natToBytes id bytesToNat
      hpem hasn hsb shaStub ripemdStub 5 "00" henc⟩

/-- Outcome of running a Go function that may panic. -/
inductive GoResult (α : Type) where
  | ok : α → GoResult α
  | err : String → GoResult α
  | panic : GoResult α
deriving DecidableEq

/-- privKey of crypto.go (the current revision, lines 127-142) as a
possibly-panicking computation: the nil PEM block is checked and turned
into the error "private key not found", so no dereference can panic. -/
def privKeyGo {P : Type}
    (pemDecode : String → Option PemBlock)
    (asn1Unmarshal : Bytes → Except String EcPrivateKeyAsn)
    (scalarBaseMult : Bytes → P)
    (pm : String) : GoResult (KeyPairP P) :=
  match pemDecode pm with
  | none => .err "private key not found"
  | some b =>
      match asn1Unmarshal b.bytes with
      | .error e => .err e
      | .ok ecpk => .ok (privKeyFromBytes scalarBaseMult ecpk.privateKey)

/-- privateKey of crypto.go (the earlier revision, lines 278-290): the
result of pem.Decode is used without a nil check, so an input with no PEM
block makes b.Bytes dereference a nil pointer and the call panics. -/
def privateKey {P : Type}
    (pemDecode : String → Option PemBlock)
    (asn1Unmarshal : Bytes → Except String EcPrivateKeyAsn)
    (scalarBaseMult : Bytes → P)
    (pm : String) : GoResult (KeyPairP P) :=
  match pemDecode pm with
  | none => .panic
  | some b =>
      match asn1Unmarshal b.bytes with
      | .error e => .err e
      | .ok ecpk => .ok (privKeyFromBytes scalarBaseMult ecpk.privateKey)

/-- Whether a character sequence starts with the given pattern. -/
def startsWithSeq : List Char → List Char → Bool
  | [], _ => true
  | _ :: _, [] => false
  | p :: ps, x :: xs => p = x && startsWithSeq ps xs

/-- Whether a character sequence contains the given pattern. -/
def containsSeq (pat : List Char) : List Char → Bool
  | [] => startsWithSeq pat []
  | x :: xs => startsWithSeq pat (x :: xs) || containsSeq pat xs

/-- Models encoding/pem.Decode at the boundary this development uses: an
input without a "-----BEGIN " marker contains no PEM block and decodes to
none (in particular the empty string); the block contents returned for
marker-bearing inputs are not relied upon here. -/
def pemDecodeModel (s : String) : Option PemBlock :=
  if containsSeq "-----BEGIN ".data s.data then some ⟨"EC PRIVATE KEY", []⟩
  else none

/-- Claim C9 (amended): for every input string and library behavior,
privKey either returns a key pair or fails with an error and never
crashes; it fails exactly when the PEM envelope is absent (pem.Decode
yields no block) or the inner ASN.1 structure does not unmarshal; any
decoded scalar is accepted without curve-point validation, the key being
rebuilt from the scalar bytes by btcec.PrivKeyFromBytes. The earlier
variant privateKey instead dereferences the missing block and crashes on
inputs with no PEM envelope. -/
theorem privKey_failure_characterization {P : Type}
    (pemDecode : String → Option PemBlock)
    (asn1Unmarshal : Bytes → Except String EcPrivateKeyAsn)
    (scalarBaseMult : Bytes → P) (pm : String) :
    (privKeyGo pemDecode asn1Unmarshal scalarBaseMult pm ≠ GoResult.panic) ∧
    ((∃ e, privKeyGo pemDecode asn1Unmarshal scalarBaseMult pm =
        GoResult.err e) ↔
      pemDecode pm = none ∨
        ∃ b e, pemDecode pm = some b ∧ asn1Unmarshal b.bytes = .error e) ∧
    (∀ b ecpk, pemDecode pm = some b → asn1Unmarshal b.bytes = .ok ecpk →
      privKeyGo pemDecode asn1Unmarshal scalarBaseMult pm =
        GoResult.ok (privKeyFromBytes scalarBaseMult ecpk.privateKey)) := by
  refine ⟨?_, ?_, ?_⟩
  · unfold privKeyGo
    repeat' split
    all_goals simp
  · constructor
    · intro ⟨e, he⟩
      unfold privKeyGo at he
      cases hd : pemDecode pm with
      | none => exact Or.inl rfl
      | some b =>
          rw [hd] at he
          dsimp only at he
          cases ha : asn1Unmarshal b.bytes with
          | error e2 => exact Or.inr ⟨b, e2, rfl, ha⟩
          | ok ecpk => rw [ha] at he; exact absurd he (by simp)
    · intro hc
      cases hc with
      | inl hd => exact ⟨"private key not found", by unfold privKeyGo; rw [hd]⟩
      | inr hex =>
          obtain ⟨b, e, hd, ha⟩ := hex
          refine ⟨e, ?_⟩
          unfold privKeyGo
          rw [hd]
          dsimp only
          rw [ha]
  · intro b ecpk hd ha
    unfold privKeyGo
    rw [hd]
    dsimp only
    rw [ha]

/-- Claim C9 counterexample: the empty input string has no PEM envelope —
pem.Decode returns no block — and privateKey, which the claim also
covers, panics on it instead of failing with an error. -/
theorem privateKey_panics_on_empty :
    pemDecodeModel "" = none ∧
      privateKey (P := Nat) pemDecodeModel
        (fun _ => .error "asn1: syntax error") bytesToNat "" =
        GoResult.panic :=
  ⟨rfl, rfl⟩

/-- Models btcec (*PrivateKey).Sign followed by Signature.Serialize: the
ECDSA nonce is produced by RFC 6979 (signRFC6979) as a deterministic
function of the private scalar and the digest; the ambient process
randomness — the rng argument — is never consulted. The nonce derivation
and the serialized-signature computation are parameters of the embedding. -/
def btcecSign (nonceOf : Nat → Bytes → Nat)
    (serializeSig : Nat → Nat → Bytes → Bytes)
    (d : Nat) (digest : Bytes) (rng : Nat → UInt8) : Bytes :=
  serializeSig d (nonceOf d digest) digest

/-- Go []byte(v) on an ASCII string. -/
def strToBytes (v : String) : Bytes :=
  v.data.map (fun ch => UInt8.ofNat ch.toNat)

/-- Models sign of crypto.go: extract the private key from the PEM string,
hash the value with SHA-256, sign the digest with btcec and hex-encode the
serialized signature. The PEM/ASN.1 pipeline, SHA-256 and the curve
primitives are parameters; rng is the randomness the process could have
drawn on. -/
def signGo {P : Type}
    (pemDecode : String → Option PemBlock)
    (asn1Unmarshal : Bytes → Except String EcPrivateKeyAsn)
    (scalarBaseMult : Bytes → P)
    (sha : Bytes → Bytes)
    (nonceOf : Nat → Bytes → Nat)
    (serializeSig : Nat → Nat → Bytes → Bytes)
    (pm v : String) (rng : Nat → UInt8) : Except String String :=
  match privKey pemDecode asn1Unmarshal scalarBaseMult pm with
  | .error e => .error e
  | .ok pk =>
      .ok (hexEncode (btcecSign nonceOf serializeSig pk.d
        (sha (strToBytes v)) rng))

/-- Claim C10: sign is deterministic — for a fixed PEM string and message,
its result is independent of the ambient randomness, because the ECDSA
nonce is derived deterministically from the key and the SHA-256 digest of
the message (RFC 6979 in btcec), never from fresh random bytes; in
particular two calls return the identical hex signature. -/
theorem sign_deterministic {P : Type}
    (pemDecode : String → Option PemBlock)
    (asn1Unmarshal : Bytes → Except String EcPrivateKeyAsn)
    (scalarBaseMult : Bytes → P)
    (sha : Bytes → Bytes)
    (nonceOf : Nat → Bytes → Nat)
    (serializeSig : Nat → Nat → Bytes → Bytes)
    (pm v : String) (rng1 rng2 : Nat → UInt8) :
    signGo pemDecode asn1Unmarshal scalarBaseMult sha nonceOf serializeSig
        pm v rng1 =
      signGo pemDecode asn1Unmarshal scalarBaseMult sha nonceOf serializeSig
        pm v rng2 := rfl

/-- Witness for claim C9 at the empty input: privKey does not panic there
and fails with an error, the PEM envelope being absent. -/
theorem privKey_failure_characterization_witness :
    (privKeyGo (P := Nat) pemDecodeModel
        (fun _ => .error "asn1: syntax error") bytesToNat "" ≠
      GoResult.panic) ∧
      (∃ e, privKeyGo (P := Nat) pemDecodeModel
          (fun _ => .error "asn1: syntax error") bytesToNat "" =
        GoResult.err e) :=
  ⟨(privKey_failure_characterization (P := Nat) pemDecodeModel
      (fun _ => .error "asn1: syntax error") bytesToNat "").1,
    (privKey_failure_characterization (P := Nat) pemDecodeModel
      (fun _ => .error "asn1: syntax error") bytesToNat "").2.1.mpr
      (Or.inl rfl)⟩
